import Mathlib

set_option maxRecDepth 100000

/-!
# Federated-Autoencoders: shallow embedding of `src/client.py` and `src/server.py`

This file embeds the federated VAE client of `src/client.py` (repository
`stanleykywu/Federated-Autoencoders`) in Lean 4 and proves the testable
properties of its specification against it.

Modelling conventions:
* Numeric tensor contents are modelled exactly, as rational numbers (`ℚ`);
  the transcendental `exp` appearing in the KL-divergence term is an
  abstract function parameter of the training environment, so loss
  expressions keep the exact algebraic shape of the Python code.
* A PyTorch tensor / NumPy array is a `Tensor`: a shape together with the
  flat list of entries.  A model's `state_dict()` is the ordered list of
  `(key, tensor)` pairs (`NetState`); PyTorch guarantees the keys of a
  `state_dict` are distinct, which appears below as `Nodup` hypotheses.
* `Module.load_state_dict(sd, strict=True)` is embedded following the
  documented PyTorch semantics: every provided entry whose key exists in
  the model and whose shape matches is copied into the model; shape
  mismatches, missing keys and unexpected keys are collected into error
  messages, and a `RuntimeError` is raised after the copies iff the error
  list is nonempty (so entries with agreeing shapes are already
  overwritten when the error is raised).
* Storage aliasing of `get_parameters` (`.cpu().numpy()`) is modelled
  separately with an explicit store, further below.
-/

/-- A numeric tensor / NumPy array: a shape and the flat entries.
`torch.tensor(v)` on a NumPy array and `.numpy()` on a tensor preserve
both components, so the same structure serves for either side. -/
structure Tensor where
  shape : List Nat
  data : List ℚ
  deriving DecidableEq, Repr

/-- The model's `state_dict()`: learnable tensors with their names, in the
model's fixed declared order. -/
abbrev NetState : Type := List (String × Tensor)

/-- `Client.get_parameters` (src/client.py:158-159):
`[val.cpu().numpy() for _, val in net.state_dict().items()]` — the
tensors of the state dict in declared order, as numeric arrays. -/
def getParameters (net : NetState) : List Tensor :=
  net.map (fun kv => kv.2)

/-- `torch.nn.Module.load_state_dict(sd, strict=True)`: returns the model
state after the copy phase together with the collected error messages
(size mismatches, then missing keys, then unexpected keys).  The call
raises `RuntimeError` iff the error list is nonempty; tensors whose
shapes agree have been overwritten regardless. -/
def loadStateDict (model : NetState) (sd : List (String × Tensor)) :
    NetState × List String :=
  let copied : NetState := model.map (fun kv =>
    match sd.lookup kv.1 with
    | some v => if v.shape = kv.2.shape then (kv.1, v) else kv
    | none => kv)
  let sizeErrs : List String := model.filterMap (fun kv =>
    match sd.lookup kv.1 with
    | some v => if v.shape = kv.2.shape then none
                else some ("size mismatch for " ++ kv.1)
    | none => none)
  let missingErrs : List String :=
    (model.map (fun kv => kv.1)).filterMap (fun k =>
      if (sd.lookup k).isSome then none else some ("missing key " ++ k))
  let unexpectedErrs : List String :=
    (sd.map (fun kv => kv.1)).filterMap (fun k =>
      if ((model.map (fun kv => kv.1)).contains k) then none
      else some ("unexpected key " ++ k))
  (copied, sizeErrs ++ missingErrs ++ unexpectedErrs)

/-- `Client.set_parameters` (src/client.py:161-164):
`params_dict = zip(net.state_dict().keys(), parameters)`;
`state_dict = OrderedDict({k: torch.tensor(v) for k, v in params_dict})`;
`net.load_state_dict(state_dict, strict=True)`.
Returns the model state after the call together with whether the call
raised.  `zip` truncates to the shorter of the two sequences. -/
def setParameters (net : NetState) (parameters : List Tensor) :
    NetState × Bool :=
  let stateDict := List.zip (net.map (fun kv => kv.1)) parameters
  let r := loadStateDict net stateDict
  (r.1, !r.2.isEmpty)

example :
    setParameters [("w", ⟨[2], [1, 2]⟩)] [⟨[2], [3, 4]⟩]
      = ([("w", ⟨[2], [3, 4]⟩)], false) := by decide

example :
    setParameters [("w", ⟨[2], [1, 2]⟩)] [⟨[3], [3, 4, 5]⟩]
      = ([("w", ⟨[2], [1, 2]⟩)], true) := by decide

-- zip truncates: an over-long vector loads without raising.
example :
    setParameters [("w", ⟨[2], [1, 2]⟩)] [⟨[2], [3, 4]⟩, ⟨[7], []⟩]
      = ([("w", ⟨[2], [3, 4]⟩)], false) := by decide

-- partial load: first shape mismatches, second matching entry is copied,
-- and the call raises.
example :
    setParameters [("a", ⟨[1], [0]⟩), ("b", ⟨[1], [0]⟩)]
      [⟨[2], [5, 5]⟩, ⟨[1], [7]⟩]
      = ([("a", ⟨[1], [0]⟩), ("b", ⟨[1], [7]⟩)], true) := by decide

/-!
## Data loading and batching

`load_data` (src/client.py:100-101) wraps the partitions in
`DataLoader(trainset, batch_size=128, shuffle=True)` and
`DataLoader(testset, batch_size=128)`.  With the default
`drop_last=False`, `len(loader)` is the number of batches,
`ceil(len(dataset) / 128)`, and iterating yields the dataset chunked
into batches of at most 128 samples.  Shuffling permutes the samples but
neither the dataset size nor the batch count, so batching is embedded on
an explicitly ordered list of samples.
-/

/-- An image, flattened to its numeric entries. -/
abbrev Image : Type := List ℚ

/-- A batch of images, as yielded by a `DataLoader`. -/
abbrev Batch : Type := List Image

/-- Structural worker for `mkBatches`: peels off batches of `bs` samples.
`fuel` only bounds the recursion; with `fuel ≥ samples.length` and
`bs > 0` it is never exhausted, since every step drops at least one
sample. -/
def mkBatchesGo (bs : Nat) : Nat → List Image → List Batch
  | _, [] => []
  | 0, _ :: _ => []
  | fuel + 1, x :: rest =>
    ((x :: rest).take bs) :: mkBatchesGo bs fuel ((x :: rest).drop bs)

/-- Chunk a dataset into batches of `bs` samples (last batch possibly
shorter), as a `DataLoader` with `drop_last=False` and `bs > 0` does. -/
def mkBatches (samples : List Image) (bs : Nat) : List Batch :=
  mkBatchesGo bs samples.length samples

/-- `len(DataLoader)`: the number of batches. -/
def dataLoaderLen (samples : List Image) (bs : Nat) : Nat :=
  (mkBatches samples bs).length

/-- The batch size fixed by `load_data` (src/client.py:100). -/
def BATCH_SIZE : Nat := 128

/-!
## Loss computation (`train`, src/client.py:105-117)

Per batch the code computes
`recon_loss = F.mse_loss(recon_images, images)` (the mean of squared
entrywise differences),
`kld_loss = -0.5 * torch.mean(1 + logvar - mu.pow(2) - logvar.exp())`
and `loss = recon_loss + 0.05 * kld_loss`.
-/

/-- Mean of a list of rationals (`torch.mean` over the flattened tensor). -/
def listMean (l : List ℚ) : ℚ := l.sum / l.length

/-- `F.mse_loss(recon, target)`: mean of entrywise squared differences. -/
def mseLoss (recon target : List ℚ) : ℚ :=
  listMean ((List.zip recon target).map (fun p => (p.1 - p.2) ^ 2))

/-- `-0.5 * torch.mean(1 + logvar - mu.pow(2) - logvar.exp())`, with the
transcendental exponential supplied as `expFn`. -/
def kldLoss (expFn : ℚ → ℚ) (mu logvar : List ℚ) : ℚ :=
  -(1 / 2) * listMean ((List.zip mu logvar).map
    (fun p => 1 + p.2 - p.1 ^ 2 - expFn p.2))

/-- `loss = recon_loss + 0.05 * kld_loss` (src/client.py:115). -/
def batchLoss (expFn : ℚ → ℚ) (recon target mu logvar : List ℚ) : ℚ :=
  mseLoss recon target + (5 / 100) * kldLoss expFn mu logvar

/-- Flatten a batch into the entries of its batched tensor. -/
def flattenBatch (b : Batch) : List ℚ := b.flatten

/-!
## The training loop (`train`, src/client.py:105-117)

The VAE architecture (`models/Image_VAE.py`) and the internals of
`torch.optim.Adam` are outside `src/`, so the forward pass and the
backward-plus-optimizer-step are abstract components of a `TrainEnv`:
`fwd net batch` yields the `(recon_images, mu, logvar)` of
`net(images)` (the reparameterization noise is folded into `fwd`), and
`backStep opt net batch lr` performs `loss.backward()` followed by
`optimizer.step()` on the optimizer state and the network weights.
`optimizer.zero_grad()` is implicit in this abstraction: each step's
gradient comes from the current batch's loss alone, never accumulated
across batches.

The loop is instrumented with a trace: one `StepRecord` per optimizer
step, recording the weights before the step, the batch, the forward
outputs and the loss and learning rate used.
-/

/-- One optimizer step of the training loop, as recorded by the
instrumented trainer. -/
structure StepRecord where
  preNet : NetState
  batch : Batch
  recon : List ℚ
  mu : List ℚ
  logvar : List ℚ
  lr : ℚ
  loss : ℚ
  deriving DecidableEq, Repr

/-- Abstract components of the VAE model (`models/Image_VAE.py`, outside
`src/`): the exponential on rationals and the forward pass
`net(images) = (recon_images, mu, logvar)`; the fresh reparameterization
noise of a forward call is folded into `fwd`. -/
structure ModelEnv where
  expFn : ℚ → ℚ
  fwd : NetState → Batch → List ℚ × List ℚ × List ℚ

/-- The learning rate fixed at optimizer construction
(`torch.optim.Adam(net.parameters(), lr=0.001)`, src/client.py:107). -/
def ADAM_LR : ℚ := 1 / 1000

/-- The type of the abstract backward-plus-optimizer-step
(`loss.backward(); optimizer.step()`) over an opaque Adam state `O`:
given the optimizer state, the current weights, the batch whose loss was
just backpropagated and the learning rate fixed at construction, it
yields the new optimizer state and weights. -/
abbrev BackStep (O : Type) : Type := O → NetState → Batch → ℚ → O × NetState

/-- The inner loop `for images, _ in trainloader` (src/client.py:110-117):
for each batch, zero the gradients, run the forward pass, form the loss,
backpropagate and step the optimizer. -/
def trainOneEpoch {O : Type} (env : ModelEnv) (backStep : BackStep O)
    (lr : ℚ) (st : O × NetState) (batches : List Batch) :
    (O × NetState) × List StepRecord :=
  match batches with
  | [] => (st, [])
  | b :: bs =>
    let f := env.fwd st.2 b
    let reconLoss := mseLoss f.1 (flattenBatch b)
    let kld := kldLoss env.expFn f.2.1 f.2.2
    let loss := reconLoss + (5 / 100) * kld
    let st' := backStep st.1 st.2 b lr
    let rest := trainOneEpoch env backStep lr st' bs
    (rest.1, ⟨st.2, b, f.1, f.2.1, f.2.2, lr, loss⟩ :: rest.2)

/-- The epoch loop `for i in range(epochs)` (src/client.py:109): runs
`epochs` full passes unconditionally.  The `verbose` branch only prints
locally computed metrics and touches no training state. -/
def trainLoop {O : Type} (env : ModelEnv) (backStep : BackStep O)
    (lr : ℚ) (st : O × NetState) (batches : List Batch) (epochs : Nat) :
    (O × NetState) × List StepRecord :=
  match epochs with
  | 0 => (st, [])
  | n + 1 =>
    let r := trainOneEpoch env backStep lr st batches
    let rest := trainLoop env backStep lr r.1 batches n
    (rest.1, r.2 ++ rest.2)

/-- `train(net, trainloader, epochs, ...)` (src/client.py:105-117):
constructs `torch.optim.Adam(net.parameters(), lr=0.001)` and runs the
epoch loop.  `initOpt` is the freshly constructed Adam state. -/
def train {O : Type} (env : ModelEnv) (backStep : BackStep O) (initOpt : O)
    (net : NetState) (batches : List Batch) (epochs : Nat) :
    NetState × List StepRecord :=
  let r := trainLoop env backStep ADAM_LR (initOpt, net) batches epochs
  (r.1.2, r.2)

/-!
## Local evaluator (`utils/metrics.py`, outside `src/`)

`eval_backprop_loss` and `eval_reconstruction` live in `utils/metrics.py`,
which is repository code not present under `src/`; they are modelled from
the specification (§4.3).
-/

/-- Modelled from the spec: `utils/metrics.eval_backprop_loss` (absent
from `src/`) — the mean of the composite loss
(reconstruction + 0.05 · KL) over the partition, computed batchwise
under a no-gradient-tracking context; a pure function of the current
weights and the partition, performing no weight update. -/
def evalBackpropLoss (env : ModelEnv) (net : NetState)
    (batches : List Batch) : ℚ :=
  listMean (batches.map (fun b =>
    let f := env.fwd net b
    batchLoss env.expFn f.1 (flattenBatch b) f.2.1 f.2.2))

/-- Modelled from the spec: `utils/metrics.eval_reconstruction` (absent
from `src/`) — the mean reconstruction-only error (no KL term) over the
partition; a pure function of the current weights and the partition,
performing no weight update. -/
def evalReconstruction (env : ModelEnv) (net : NetState)
    (batches : List Batch) : ℚ :=
  listMean (batches.map (fun b =>
    let f := env.fwd net b
    mseLoss f.1 (flattenBatch b)))

/-!
## The client protocol handler (`Client`, src/client.py:157-192)

`fit` and `evaluate` begin with `self.set_parameters(parameters)`, whose
strict load raises on mismatch; the raise propagates out of the protocol
method (`.error` below).  On success `fit` trains and returns
`(self.get_parameters(), len(trainloader), {})`; `evaluate` computes the
four metrics and returns `(float(tst_loss), len(testloader), {...})`.
Both `len(...)` calls count *batches* of the respective `DataLoader`.
The Lean versions additionally return the model state after the call and
(for `fit`) the instrumented step trace.
-/

/-- `Client.fit` (src/client.py:166-175).  Returns the round triple
(updated parameters, `len(trainloader)`, empty metrics), the model state
after the call, and the optimizer-step trace. -/
def fit {O : Type} (env : ModelEnv) (backStep : BackStep O) (initOpt : O)
    (net : NetState) (trainSamples : List Image) (epochs : Nat)
    (parameters : List Tensor) :
    Except String ((List Tensor × Nat × List (String × ℚ)) × NetState × List StepRecord) :=
  let sp := setParameters net parameters
  if sp.2 then Except.error "load_state_dict: RuntimeError"
  else
    let t := train env backStep initOpt sp.1 (mkBatches trainSamples BATCH_SIZE) epochs
    Except.ok ((getParameters t.1, dataLoaderLen trainSamples BATCH_SIZE, []), t.1, t.2)

/-- `Client.evaluate` (src/client.py:177-192).  Returns the round triple
(test backprop loss, `len(testloader)`, the four named metrics) and the
model state after the call. -/
def evaluate (env : ModelEnv) (net : NetState)
    (trainSamples testSamples : List Image) (parameters : List Tensor) :
    Except String ((ℚ × Nat × List (String × ℚ)) × NetState) :=
  let sp := setParameters net parameters
  if sp.2 then Except.error "load_state_dict: RuntimeError"
  else
    let trnB := mkBatches trainSamples BATCH_SIZE
    let tstB := mkBatches testSamples BATCH_SIZE
    let trnLoss := evalBackpropLoss env sp.1 trnB
    let tstLoss := evalBackpropLoss env sp.1 tstB
    let trnRecon := evalReconstruction env sp.1 trnB
    let tstRecon := evalReconstruction env sp.1 tstB
    Except.ok ((tstLoss, (mkBatches testSamples BATCH_SIZE).length,
      [("Training backprop loss", trnLoss),
       ("Testing backprop loss", tstLoss),
       ("Training recon loss", trnRecon),
       ("Testing recon loss", tstRecon)]), sp.1)

/-!
## Sampling (`sample`, src/client.py:137-143) and client configuration
-/

/-- The client's start-up configuration (src/client.py:21-27):
`--epochs` and `--latent_size`, both defaulting to 10; `main` builds
`ImageVAE(latent_size=args.latent_size)`. -/
structure TrainingConfig where
  epochs : Nat
  latentSize : Nat

/-- `z = torch.randn(10)` (src/client.py:140): ten draws from the noise
source, the literal `10` being hard-coded regardless of the configured
latent size. -/
def sampleLatentInput (randn : Nat → ℚ) : List ℚ :=
  (List.range 10).map randn

/-- `sample(net)` (src/client.py:137-143): under `torch.no_grad()`, draw
`z = torch.randn(10)`, move it to the device, and return `net.decode(z)`
(`decode` is the abstract decoder; `.to(DEVICE)` does not change the
values). -/
def sample (decode : List ℚ → List ℚ) (randn : Nat → ℚ) : List ℚ :=
  decode (sampleLatentInput randn)

/-!
## Storage aliasing (`get_parameters`, src/client.py:158-159)

Whether the arrays returned by `get_parameters` share storage with the
live model is a question about tensor memory, modelled with an explicit
store: an address-indexed family of numeric arrays.  In `main`
(src/client.py:152-155) the network is constructed and never moved to a
device, so its parameters are CPU-resident; per documented PyTorch
behaviour `t.cpu()` on a CPU tensor returns the same tensor (no copy)
and `t.numpy()` returns an array sharing the tensor's memory.  Both are
therefore the identity on storage references.  In-place weight
mutation — `optimizer.step()` and the `param.copy_(...)` performed by
`load_state_dict` — writes through the parameter's address. -/

/-- CPU tensor storage: address-indexed numeric arrays. -/
abbrev Store : Type := List (List ℚ)

/-- Read the array at an address. -/
def readStore (s : Store) (a : Nat) : List ℚ := s.getD a []

/-- Overwrite the array at an address (in-place mutation). -/
def writeStore (s : Store) (a : Nat) (v : List ℚ) : Store := s.set a v

/-- A tensor (or NumPy array) as a reference to its backing storage. -/
structure TensorRef where
  addr : Nat
  deriving DecidableEq, Repr

/-- `t.cpu()` on a CPU-resident tensor: the same tensor, no copy. -/
def cpuOnCpu (t : TensorRef) : TensorRef := t

/-- `t.numpy()`: an array sharing the tensor's underlying memory. -/
def numpySharing (t : TensorRef) : TensorRef := t

/-- The model's state dict at the storage level. -/
abbrev HeapNet : Type := List (String × TensorRef)

/-- `get_parameters` at the storage level:
`[val.cpu().numpy() for _, val in net.state_dict().items()]`. -/
def getParametersRef (net : HeapNet) : List TensorRef :=
  net.map (fun kv => numpySharing (cpuOnCpu kv.2))

/-- An in-place update of a parameter tensor (`optimizer.step()`, or the
`param.copy_(input_param)` inside `load_state_dict`). -/
def inPlaceUpdate (s : Store) (t : TensorRef) (v : List ℚ) : Store :=
  writeStore s t.addr v

/-!
## Helper lemmas about the parameter exchange
-/

theorem zip_keys_vals (l : List (String × Tensor)) :
    List.zip (l.map (fun kv => kv.1)) (l.map (fun kv => kv.2)) = l := by
  induction l with
  | nil => rfl
  | cons a t ih => simpa [List.zip_cons_cons] using ih

theorem bnot_isEmpty_of_ne_nil {α : Type _} (l : List α) (h : l ≠ []) :
    (!l.isEmpty) = true := by
  cases l with
  | nil => exact absurd rfl h
  | cons a t => rfl

theorem lookup_zip_get (keys : List String) (params : List Tensor)
    (hnd : keys.Nodup) (i : Nat) (hk : i < keys.length)
    (hp : i < params.length) :
    (List.zip keys params).lookup (keys.get ⟨i, hk⟩)
      = some (params.get ⟨i, hp⟩) := by
  induction keys generalizing params i with
  | nil => exact absurd hk (Nat.not_lt_zero i)
  | cons k ks ih =>
    cases params with
    | nil => exact absurd hp (Nat.not_lt_zero i)
    | cons p ps =>
      rcases List.nodup_cons.mp hnd with ⟨hk_notmem, hnd'⟩
      cases i with
      | zero => simp [List.zip_cons_cons, List.lookup_cons]
      | succ j =>
        have hj : j < ks.length := Nat.lt_of_succ_lt_succ hk
        have hmem : ks.get ⟨j, hj⟩ ∈ ks := List.get_mem ks j hj
        have hne : ks.get ⟨j, hj⟩ ≠ k := fun he => hk_notmem (he ▸ hmem)
        have hbeq : (ks.get ⟨j, hj⟩ == k) = false :=
          beq_eq_false_iff_ne.mpr hne
        have hstep : (List.zip (k :: ks) (p :: ps)).lookup
              ((k :: ks).get ⟨j + 1, hk⟩)
            = (List.zip ks ps).lookup (ks.get ⟨j, hj⟩) := by
          rw [List.zip_cons_cons]
          show List.lookup (ks.get ⟨j, hj⟩) ((k, p) :: List.zip ks ps) = _
          rw [List.lookup_cons, hbeq]
        rw [hstep]
        exact ih ps hnd' j hj (Nat.lt_of_succ_lt_succ hp)

theorem lookup_zip_none (keys : List String) (params : List Tensor)
    (hnd : keys.Nodup) (j : Nat) (hk : j < keys.length)
    (hj : params.length ≤ j) :
    (List.zip keys params).lookup (keys.get ⟨j, hk⟩) = none := by
  induction keys generalizing params j with
  | nil => exact absurd hk (Nat.not_lt_zero j)
  | cons k ks ih =>
    cases params with
    | nil => simp [List.zip]
    | cons p ps =>
      rcases List.nodup_cons.mp hnd with ⟨hk_notmem, hnd'⟩
      cases j with
      | zero => exact absurd hj (by simp)
      | succ j' =>
        have hj' : j' < ks.length := Nat.lt_of_succ_lt_succ hk
        have hmem : ks.get ⟨j', hj'⟩ ∈ ks := List.get_mem ks j' hj'
        have hne : ks.get ⟨j', hj'⟩ ≠ k := fun he => hk_notmem (he ▸ hmem)
        have hbeq : (ks.get ⟨j', hj'⟩ == k) = false :=
          beq_eq_false_iff_ne.mpr hne
        have hstep : (List.zip (k :: ks) (p :: ps)).lookup
              ((k :: ks).get ⟨j' + 1, hk⟩)
            = (List.zip ks ps).lookup (ks.get ⟨j', hj'⟩) := by
          rw [List.zip_cons_cons]
          show List.lookup (ks.get ⟨j', hj'⟩) ((k, p) :: List.zip ks ps) = _
          rw [List.lookup_cons, hbeq]
        rw [hstep]
        exact ih ps hnd' j' hj' (Nat.le_of_succ_le_succ hj)

/-- When the supplied vector has exactly as many tensors as the model has
state-dict entries and every shape agrees positionally, `set_parameters`
succeeds without raising, and the resulting state pairs the model's keys
with the supplied tensors in order. -/
theorem setParameters_ok (net : NetState) (params : List Tensor)
    (hnd : (net.map (fun kv => kv.1)).Nodup)
    (hlen : params.length = net.length)
    (hsh : ∀ i (hi : i < net.length) (hp : i < params.length),
      (params.get ⟨i, hp⟩).shape = ((net.get ⟨i, hi⟩).2).shape) :
    setParameters net params
      = (List.zip (net.map (fun kv => kv.1)) params, false) := by
  have hkl : (net.map (fun kv => kv.1)).length = net.length :=
    List.length_map net _
  have hlook : ∀ i (hi : i < net.length) (hp : i < params.length),
      (List.zip (net.map (fun kv => kv.1)) params).lookup
          ((net.get ⟨i, hi⟩).1)
        = some (params.get ⟨i, hp⟩) := by
    intro i hi hp
    have hk : i < (net.map (fun kv => kv.1)).length := by rw [hkl]; exact hi
    have hkey : (net.map (fun kv => kv.1)).get ⟨i, hk⟩
        = (net.get ⟨i, hi⟩).1 := by
      simp [List.get_map]
    rw [← hkey]
    exact lookup_zip_get _ params hnd i hk hp
  have hcopied :
      (loadStateDict net
        (List.zip (net.map (fun kv => kv.1)) params)).1
      = List.zip (net.map (fun kv => kv.1)) params := by
    simp only [loadStateDict]
    apply List.ext_get
    · simp [List.length_zip, hkl, hlen]
    · intro i h1 h2
      have hi : i < net.length := by simpa using h1
      have hp : i < params.length := by rw [hlen]; exact hi
      have hk : i < (net.map (fun kv => kv.1)).length := by rw [hkl]; exact hi
      rw [List.get_map]
      rw [hlook i hi hp]
      simp only [hsh i hi hp, if_true]
      rw [List.get_zip]
      simp [List.get_map]
  have herrs :
      (loadStateDict net
        (List.zip (net.map (fun kv => kv.1)) params)).2 = [] := by
    simp only [loadStateDict]
    rw [List.append_eq_nil, List.append_eq_nil]
    refine ⟨⟨List.filterMap_eq_nil_iff.mpr ?_,
      List.filterMap_eq_nil_iff.mpr ?_⟩, List.filterMap_eq_nil_iff.mpr ?_⟩
    · intro kv hmem
      rcases List.mem_iff_get.mp hmem with ⟨⟨i, hi⟩, rfl⟩
      have hp : i < params.length := by rw [hlen]; exact hi
      rw [hlook i hi hp]
      have hs := hsh i hi hp
      simp only [List.get_eq_getElem] at hs
      simp [hs]
    · intro k hkmem
      rcases List.mem_iff_get.mp hkmem with ⟨⟨i, hk⟩, rfl⟩
      have hi : i < net.length := by rw [← hkl]; exact hk
      have hp : i < params.length := by rw [hlen]; exact hi
      have hkey : (net.map (fun kv => kv.1)).get ⟨i, hk⟩
          = (net.get ⟨i, hi⟩).1 := by simp [List.get_map]
      rw [hkey, hlook i hi hp]
      simp
    · intro k hkmem
      have hle : (net.map (fun kv => kv.1)).length ≤ params.length := by
        rw [hkl, hlen]
      rw [List.map_fst_zip _ _ hle] at hkmem
      simp [List.elem_iff, hkmem]
  show ((loadStateDict net
      (List.zip (net.map (fun kv => kv.1)) params)).1,
    !(loadStateDict net
      (List.zip (net.map (fun kv => kv.1)) params)).2.isEmpty) = _
  rw [hcopied, herrs]
  rfl

theorem lookup_keys_zip (net : NetState) (params : List Tensor)
    (hnd : (net.map (fun kv => kv.1)).Nodup)
    (i : Nat) (hi : i < net.length) (hp : i < params.length) :
    (List.zip (net.map (fun kv => kv.1)) params).lookup
        ((net.get ⟨i, hi⟩).1)
      = some (params.get ⟨i, hp⟩) := by
  have hk : i < (net.map (fun kv => kv.1)).length := by
    rw [List.length_map]; exact hi
  have hkey : (net.map (fun kv => kv.1)).get ⟨i, hk⟩
      = (net.get ⟨i, hi⟩).1 := by
    simp [List.get_map]
  rw [← hkey]
  exact lookup_zip_get _ params hnd i hk hp

theorem lookup_keys_zip_none (net : NetState) (params : List Tensor)
    (hnd : (net.map (fun kv => kv.1)).Nodup)
    (j : Nat) (hj : j < net.length) (hge : params.length ≤ j) :
    (List.zip (net.map (fun kv => kv.1)) params).lookup
        ((net.get ⟨j, hj⟩).1) = none := by
  have hk : j < (net.map (fun kv => kv.1)).length := by
    rw [List.length_map]; exact hj
  have hkey : (net.map (fun kv => kv.1)).get ⟨j, hk⟩
      = (net.get ⟨j, hj⟩).1 := by
    simp [List.get_map]
  rw [← hkey]
  exact lookup_zip_none _ params hnd j hk hge

theorem zip_truncates {α β : Type _} (keys : List α) (leading extra : List β)
    (h : keys.length ≤ leading.length) :
    List.zip keys (leading ++ extra) = List.zip keys leading := by
  induction keys generalizing leading with
  | nil => simp [List.zip]
  | cons k ks ih =>
    cases leading with
    | nil => exact absurd h (by simp)
    | cons p ps =>
      simp only [List.cons_append, List.zip_cons_cons]
      rw [ih ps (Nat.le_of_succ_le_succ h)]

theorem trainOneEpoch_trace_length {O : Type} (env : ModelEnv)
    (backStep : BackStep O) (lr : ℚ) (st : O × NetState)
    (batches : List Batch) :
    (trainOneEpoch env backStep lr st batches).2.length = batches.length := by
  induction batches generalizing st with
  | nil => rfl
  | cons b bs ih => simp [trainOneEpoch, ih]

theorem trainLoop_trace_length {O : Type} (env : ModelEnv)
    (backStep : BackStep O) (lr : ℚ) (st : O × NetState)
    (batches : List Batch) (epochs : Nat) :
    (trainLoop env backStep lr st batches epochs).2.length
      = epochs * batches.length := by
  induction epochs generalizing st with
  | zero => simp [trainLoop]
  | succ n ih =>
    simp [trainLoop, List.length_append, trainOneEpoch_trace_length, ih,
      Nat.succ_mul, Nat.add_comm]

theorem trainOneEpoch_trace_ok {O : Type} (env : ModelEnv)
    (backStep : BackStep O) (lr : ℚ) (st : O × NetState)
    (batches : List Batch) (r : StepRecord)
    (h : r ∈ (trainOneEpoch env backStep lr st batches).2) :
    env.fwd r.preNet r.batch = (r.recon, r.mu, r.logvar) ∧ r.lr = lr ∧
      r.loss = batchLoss env.expFn r.recon (flattenBatch r.batch)
        r.mu r.logvar := by
  induction batches generalizing st with
  | nil => cases h
  | cons b bs ih =>
    rw [trainOneEpoch] at h
    rcases List.mem_cons.mp h with heq | hmem
    · subst heq
      exact ⟨rfl, rfl, rfl⟩
    · exact ih _ hmem

theorem trainLoop_trace_ok {O : Type} (env : ModelEnv)
    (backStep : BackStep O) (lr : ℚ) (st : O × NetState)
    (batches : List Batch) (epochs : Nat) (r : StepRecord)
    (h : r ∈ (trainLoop env backStep lr st batches epochs).2) :
    env.fwd r.preNet r.batch = (r.recon, r.mu, r.logvar) ∧ r.lr = lr ∧
      r.loss = batchLoss env.expFn r.recon (flattenBatch r.batch)
        r.mu r.logvar := by
  induction epochs generalizing st with
  | zero => cases h
  | succ n ih =>
    rw [trainLoop] at h
    rcases List.mem_append.mp h with hmem | hmem
    · exact trainOneEpoch_trace_ok env backStep lr st batches r hmem
    · exact ih _ hmem

/-!
## Concrete fixtures used by witnesses and counterexamples
-/

/-- A trivial model environment: identity exponential and a forward pass
returning empty tensors. -/
def env0 : ModelEnv := ⟨id, fun _ _ => ([], [], [])⟩

/-- A trivial backward-plus-step: leaves optimizer state and weights
unchanged. -/
def backStep0 : BackStep Unit := fun o n _ _ => (o, n)

/-- A one-parameter model state. -/
def net0 : NetState := [("w", ⟨[1], [0]⟩)]

/-- A tensor matching `net0`'s single declared shape. -/
def t0 : Tensor := ⟨[1], [0]⟩

/-- A training partition of 256 (empty) images. -/
def ds256 : List Image := List.replicate 256 []

/-- A single one-image batch. -/
def demoBatches : List Batch := [[[1]]]

/-- The step record produced by training `net0` on `demoBatches` for one
epoch under `env0` and `backStep0`. -/
def demoRecord : StepRecord :=
  ⟨net0, [[1]], [], [], [], ADAM_LR,
   mseLoss [] (flattenBatch [[1]]) + (5 / 100) * kldLoss env0.expFn [] []⟩

/-- A two-parameter model state, both parameters of shape `[1]`. -/
def net2 : NetState := [("a", ⟨[1], [0]⟩), ("b", ⟨[1], [0]⟩)]

/-- A parameter vector whose first tensor has the wrong shape and whose
second matches `net2`. -/
def params2 : List Tensor := [⟨[2], [5, 5]⟩, ⟨[1], [7]⟩]

/-!
## Claim theorems: parameter exchange
-/

/-- C3: round-trip — for the ParameterVector P obtained from
`get_parameters()`, `set_parameters(P)` succeeds without raising, leaves
the model state unchanged, and a subsequent `get_parameters()` returns a
vector equal to P for every named tensor and shape (in this exact
rational model, numerical equality is equality). -/
theorem get_set_get_roundtrip (net : NetState)
    (hnd : (net.map (fun kv => kv.1)).Nodup) :
    setParameters net (getParameters net) = (net, false) ∧
    getParameters ((setParameters net (getParameters net)).1)
      = getParameters net := by
  have h := setParameters_ok net (getParameters net) hnd
    (by simp [getParameters])
    (by intro i hi hp; simp [getParameters])
  have h2 : List.zip (net.map (fun kv => kv.1)) (getParameters net) = net := by
    rw [show (getParameters net) = net.map (fun kv => kv.2) from rfl]
    exact zip_keys_vals net
  rw [h2] at h
  exact ⟨h, by rw [h]⟩

/-- Witness for C3 at a concrete two-tensor model state. -/
theorem get_set_get_roundtrip_witness :
    setParameters net2 (getParameters net2) = (net2, false) ∧
    getParameters ((setParameters net2 (getParameters net2)).1)
      = getParameters net2 :=
  get_set_get_roundtrip net2 (by decide)

/-- C2 counterexample: a vector whose first tensor has the wrong shape
makes `set_parameters` raise, yet the second (matching) tensor has
already been overwritten — the model state is partially overwritten on
error, contradicting the claim's no-partial-load requirement. -/
theorem set_parameters_partial_load_on_mismatch :
    (setParameters net2 params2).2 = true ∧
    (setParameters net2 params2).1 ≠ net2 ∧
    (setParameters net2 params2).1
      = [("a", ⟨[1], [0]⟩), ("b", ⟨[1], [7]⟩)] := by
  refine ⟨by decide, by decide, by decide⟩

/-- C2 (amended): `set_parameters` raises whenever some supplied tensor's
shape disagrees with the model's declared shape at the same position,
and whenever the vector is shorter than the model's state dict; however
a longer vector is silently truncated by `zip`, and tensors whose shapes
match are overwritten before the error propagates (partial load). -/
theorem set_parameters_raises_on_mismatch_or_short (net : NetState)
    (params : List Tensor) (hnd : (net.map (fun kv => kv.1)).Nodup) :
    (∀ i (hi : i < net.length) (hp : i < params.length),
        (params.get ⟨i, hp⟩).shape ≠ ((net.get ⟨i, hi⟩).2).shape →
        (setParameters net params).2 = true) ∧
    (params.length < net.length → (setParameters net params).2 = true) := by
  constructor
  · intro i hi hp hne
    show (!(loadStateDict net
      (List.zip (net.map (fun kv => kv.1)) params)).2.isEmpty) = true
    apply bnot_isEmpty_of_ne_nil
    intro hnil
    simp only [loadStateDict] at hnil
    rw [List.append_eq_nil, List.append_eq_nil] at hnil
    obtain ⟨⟨hs, _⟩, _⟩ := hnil
    have hf := List.filterMap_eq_nil_iff.mp hs _ (List.get_mem net i hi)
    rw [lookup_keys_zip net params hnd i hi hp] at hf
    simp at hf
    exact hne hf
  · intro hlt
    show (!(loadStateDict net
      (List.zip (net.map (fun kv => kv.1)) params)).2.isEmpty) = true
    apply bnot_isEmpty_of_ne_nil
    intro hnil
    simp only [loadStateDict] at hnil
    rw [List.append_eq_nil, List.append_eq_nil] at hnil
    obtain ⟨⟨_, hm⟩, _⟩ := hnil
    have hk : params.length < (net.map (fun kv => kv.1)).length := by
      rw [List.length_map]; exact hlt
    have hf := List.filterMap_eq_nil_iff.mp hm _
      (List.get_mem (net.map (fun kv => kv.1)) params.length hk)
    have hkey : (net.map (fun kv => kv.1)).get ⟨params.length, hk⟩
        = (net.get ⟨params.length, hlt⟩).1 := by
      simp [List.get_map]
    rw [hkey,
      lookup_keys_zip_none net params hnd params.length hlt (Nat.le_refl _)]
      at hf
    simp at hf

/-- Witness for C2 (amended): both raise cases at concrete inputs. -/
theorem set_parameters_raises_witness :
    ((⟨[2], [5, 5]⟩ : Tensor).shape ≠ (⟨[1], [0]⟩ : Tensor).shape ∧
      (setParameters net2 params2).2 = true) ∧
    ([t0].length < net2.length ∧ (setParameters net2 [t0]).2 = true) :=
  ⟨⟨by decide,
    (set_parameters_raises_on_mismatch_or_short net2 params2 (by decide)).1
      0 (by decide) (by decide) (by decide)⟩,
   ⟨by decide,
    (set_parameters_raises_on_mismatch_or_short net2 [t0] (by decide)).2
      (by decide)⟩⟩

/-- C9: a ParameterVector longer than the model's state dict, whose
leading tensors match the declared shapes in order, loads without
raising, and the trailing extra tensors are silently discarded
(the result coincides with loading only the leading tensors). -/
theorem set_parameters_truncates_extra (net : NetState)
    (leading extra : List Tensor)
    (hnd : (net.map (fun kv => kv.1)).Nodup)
    (hlen : leading.length = net.length)
    (hsh : ∀ i (hi : i < net.length) (hp : i < leading.length),
      (leading.get ⟨i, hp⟩).shape = ((net.get ⟨i, hi⟩).2).shape) :
    setParameters net (leading ++ extra) = setParameters net leading ∧
    (setParameters net (leading ++ extra)).2 = false := by
  have hz : List.zip (net.map (fun kv => kv.1)) (leading ++ extra)
      = List.zip (net.map (fun kv => kv.1)) leading :=
    zip_truncates _ _ _ (by rw [List.length_map, hlen])
  have heq : setParameters net (leading ++ extra)
      = setParameters net leading := by
    show ((loadStateDict net
        (List.zip (net.map (fun kv => kv.1)) (leading ++ extra))).1,
      !(loadStateDict net
        (List.zip (net.map (fun kv => kv.1)) (leading ++ extra))).2.isEmpty)
      = _
    rw [hz]
    rfl
  refine ⟨heq, ?_⟩
  rw [heq, setParameters_ok net leading hnd hlen hsh]

/-- Witness for C9: one extra trailing tensor is discarded without an
error. -/
theorem set_parameters_truncates_extra_witness :
    setParameters net0 ([t0] ++ [⟨[7], []⟩])
      = setParameters net0 [t0] ∧
    (setParameters net0 ([t0] ++ [⟨[7], []⟩])).2 = false :=
  set_parameters_truncates_extra net0 [t0] [⟨[7], []⟩]
    (by decide) (by decide)
    (by
      intro i hi hp
      have h0 : i = 0 := Nat.lt_one_iff.mp hp
      subst h0
      rfl)

/-!
## Claim theorems: training loop and fit
-/

/-- C5: for every batch in every epoch, the trainer's step uses the loss
`mse_loss(recon, input) + 0.05 * (-0.5 * mean(1 + logvar - mu^2 -
exp(logvar)))` computed from this batch's forward pass, with the Adam
learning rate fixed at 0.001 for every step (no schedule), and it
performs exactly `epochs * (number of batches)` optimizer steps —
`epochs` unconditional full passes, no gradient clipping or early
stopping (clipping would appear as an extra transformation between
backward and step; none exists in the loop).  The per-step sequence
zero-grad → forward → loss → backward → step is the body of
`trainOneEpoch`, whose backward-plus-step is the abstract `backStep`. -/
theorem train_loop_structure {O : Type} (env : ModelEnv)
    (backStep : BackStep O) (o : O) (net : NetState)
    (batches : List Batch) (epochs : Nat) :
    (train env backStep o net batches epochs).2.length
      = epochs * batches.length ∧
    ∀ r ∈ (train env backStep o net batches epochs).2,
      env.fwd r.preNet r.batch = (r.recon, r.mu, r.logvar) ∧
      r.lr = ADAM_LR ∧
      r.loss = batchLoss env.expFn r.recon (flattenBatch r.batch)
        r.mu r.logvar := by
  constructor
  · simpa [train] using
      trainLoop_trace_length env backStep ADAM_LR (o, net) batches epochs
  · intro r hr
    exact trainLoop_trace_ok env backStep ADAM_LR (o, net) batches epochs r
      (by simpa [train] using hr)

/-- Witness for C5: the single step of a one-epoch, one-batch run. -/
theorem train_loop_structure_witness :
    (train env0 backStep0 () net0 demoBatches 1).2.length
      = 1 * demoBatches.length ∧
    (env0.fwd demoRecord.preNet demoRecord.batch
        = (demoRecord.recon, demoRecord.mu, demoRecord.logvar) ∧
      demoRecord.lr = ADAM_LR ∧
      demoRecord.loss = batchLoss env0.expFn demoRecord.recon
        (flattenBatch demoRecord.batch) demoRecord.mu demoRecord.logvar) :=
  ⟨(train_loop_structure env0 backStep0 () net0 demoBatches 1).1,
   (train_loop_structure env0 backStep0 () net0 demoBatches 1).2
     demoRecord (List.Mem.head _)⟩

/-- C1 counterexample: on a training partition of 256 samples with batch
size 128 and `epochs = 1`, `fit` returns sample_count 2 (the number of
DataLoader batches, `len(trainloader)`), not 256 (the number of
samples), so the returned sample_count does not equal the size of the
training partition. -/
theorem fit_sample_count_is_batch_count_not_samples :
    ds256.length = 256 ∧
    (fit env0 backStep0 () net0 ds256 1 [t0]).map (fun r => r.1.2.1)
      = Except.ok 2 ∧
    (2 : Nat) ≠ 256 := by
  refine ⟨by decide, by rfl, by decide⟩

/-- C1 (amended): for every successful `fit(parameters, config)` call,
the returned sample_count equals `len(trainloader)` — the number of
batches, the ceiling of the partition size over 128 — and the trainer
performs exactly `epochs * len(trainloader)` optimizer steps; in
particular, with epochs=1 and a 256-sample partition, 2 optimizer steps
and sample_count == 2. -/
theorem fit_returns_batch_count {O : Type} (env : ModelEnv)
    (backStep : BackStep O) (o : O) (net : NetState)
    (samples : List Image) (epochs : Nat) (params : List Tensor)
    (h : (setParameters net params).2 = false) :
    (fit env backStep o net samples epochs params).map
        (fun r => (r.1.2.1, r.2.2.length))
      = Except.ok (dataLoaderLen samples BATCH_SIZE,
          epochs * dataLoaderLen samples BATCH_SIZE) := by
  simp [fit, h, train, dataLoaderLen, trainLoop_trace_length, Except.map]

/-- Witness for C1 (amended): 256 samples, epochs=1 — sample_count 2 and
2 optimizer steps. -/
theorem fit_returns_batch_count_witness :
    (setParameters net0 [t0]).2 = false ∧
    (fit env0 backStep0 () net0 ds256 1 [t0]).map
        (fun r => (r.1.2.1, r.2.2.length))
      = Except.ok (2, 2) :=
  ⟨by decide,
   (fit_returns_batch_count env0 backStep0 () net0 ds256 1 [t0]
     (by decide)).trans (by rfl)⟩

/-- C7: for every successful `fit(parameters, config)` call, the metrics
mapping returned to the coordinator is empty (the rich metrics computed
under `verbose=True` are only printed locally). -/
theorem fit_returns_empty_metrics {O : Type} (env : ModelEnv)
    (backStep : BackStep O) (o : O) (net : NetState)
    (samples : List Image) (epochs : Nat) (params : List Tensor)
    (h : (setParameters net params).2 = false) :
    (fit env backStep o net samples epochs params).map
        (fun r => r.1.2.2)
      = Except.ok ([] : List (String × ℚ)) := by
  simp [fit, h, Except.map]

/-- Witness for C7 at concrete inputs. -/
theorem fit_returns_empty_metrics_witness :
    (setParameters net0 [t0]).2 = false ∧
    (fit env0 backStep0 () net0 ds256 1 [t0]).map (fun r => r.1.2.2)
      = Except.ok ([] : List (String × ℚ)) :=
  ⟨by decide,
   fit_returns_empty_metrics env0 backStep0 () net0 ds256 1 [t0]
     (by decide)⟩

/-!
## Claim theorems: evaluate
-/

/-- C4 counterexample: on a test partition of 256 samples,
`evaluate` returns sample_count 2 (`len(testloader)`, the number of
DataLoader batches), not 256 (the size of the test partition). -/
theorem evaluate_sample_count_is_batch_count_not_samples :
    ds256.length = 256 ∧
    (evaluate env0 net0 [] ds256 [t0]).map (fun r => r.1.2.1)
      = Except.ok 2 ∧
    (2 : Nat) ≠ 256 := by
  refine ⟨by decide, by rfl, by decide⟩

/-- C4 (amended): for every successful `evaluate(parameters, config)`
call the returned triple is (loss, sample_count, metrics) where loss is
the test-partition backprop loss of the loaded weights, sample_count is
`len(testloader)` — the number of test batches, not the number of test
samples — and metrics maps exactly the four names Training/Testing
backprop loss and Training/Testing recon loss, with the primary loss
equal to the value stored under Testing backprop loss. -/
theorem evaluate_contract (env : ModelEnv) (net : NetState)
    (trainS testS : List Image) (params : List Tensor)
    (h : (setParameters net params).2 = false) :
    (evaluate env net trainS testS params).map (fun r => r.1.2.1)
      = Except.ok (dataLoaderLen testS BATCH_SIZE) ∧
    (evaluate env net trainS testS params).map (fun r => r.1.1)
      = Except.ok (evalBackpropLoss env (setParameters net params).1
          (mkBatches testS BATCH_SIZE)) ∧
    (evaluate env net trainS testS params).map
        (fun r => r.1.2.2.map (fun kv => kv.1))
      = Except.ok ["Training backprop loss", "Testing backprop loss",
          "Training recon loss", "Testing recon loss"] ∧
    (evaluate env net trainS testS params).map
        (fun r => r.1.2.2.lookup "Testing backprop loss")
      = Except.ok (some (evalBackpropLoss env (setParameters net params).1
          (mkBatches testS BATCH_SIZE))) := by
  refine ⟨?_, ?_, ?_, ?_⟩ <;>
    simp [evaluate, h, Except.map, dataLoaderLen, List.lookup]

/-- Witness for C4 (amended) at concrete inputs: the count is the batch
count of the 256-sample test partition. -/
theorem evaluate_contract_witness :
    (setParameters net0 [t0]).2 = false ∧
    (evaluate env0 net0 [] ds256 [t0]).map (fun r => r.1.2.1)
      = Except.ok 2 :=
  ⟨by decide,
   ((evaluate_contract env0 net0 [] ds256 [t0] (by decide)).1).trans
     (by rfl)⟩

/-- C6: `evaluate` never mutates the model's weights beyond loading the
supplied parameters — the parameter snapshot after the call equals the
supplied vector, and a second `evaluate` from the post-call state with
the same parameters returns the identical result (identical snapshots
before and after each call).  The two metric evaluators are modelled
from the spec (they live in `utils/metrics.py`, outside `src/`) as pure
functions of weights and partition. -/
theorem evaluate_does_not_mutate_weights (env : ModelEnv) (net : NetState)
    (trainS testS : List Image) (params : List Tensor)
    (hnd : (net.map (fun kv => kv.1)).Nodup)
    (hlen : params.length = net.length)
    (hsh : ∀ i (hi : i < net.length) (hp : i < params.length),
      (params.get ⟨i, hp⟩).shape = ((net.get ⟨i, hi⟩).2).shape) :
    (evaluate env net trainS testS params).map (fun r => getParameters r.2)
      = Except.ok params ∧
    evaluate env (List.zip (net.map (fun kv => kv.1)) params)
        trainS testS params
      = evaluate env net trainS testS params := by
  have h1 := setParameters_ok net params hnd hlen hsh
  have hle1 : params.length ≤ (net.map (fun kv => kv.1)).length := by
    rw [List.length_map, hlen]
  have hle2 : (net.map (fun kv => kv.1)).length ≤ params.length := by
    rw [List.length_map, hlen]
  have hval : getParameters (List.zip (net.map (fun kv => kv.1)) params)
      = params := by
    show List.map Prod.snd (List.zip (net.map (fun kv => kv.1)) params)
      = params
    exact List.map_snd_zip _ _ hle1
  have hkeys1 : (List.zip (net.map (fun kv => kv.1)) params).map
      (fun kv => kv.1) = net.map (fun kv => kv.1) := by
    show List.map Prod.fst (List.zip (net.map (fun kv => kv.1)) params) = _
    exact List.map_fst_zip _ _ hle2
  have hlen1 : (List.zip (net.map (fun kv => kv.1)) params).length
      = net.length := by
    rw [List.length_zip, List.length_map, hlen]
    exact Nat.min_self _
  have h2 := setParameters_ok
    (List.zip (net.map (fun kv => kv.1)) params) params
    (by rw [hkeys1]; exact hnd)
    (by rw [hlen1]; exact hlen)
    (by
      intro i hi hp
      rw [List.get_zip])
  rw [hkeys1] at h2
  constructor
  · simp [evaluate, h1, Except.map, hval]
  · simp [evaluate, h1, h2, Except.map]

/-- Witness for C6 at concrete inputs. -/
theorem evaluate_does_not_mutate_weights_witness :
    (evaluate env0 net0 [] [] [t0]).map (fun r => getParameters r.2)
      = Except.ok [t0] ∧
    evaluate env0 (List.zip (net0.map (fun kv => kv.1)) [t0]) [] [] [t0]
      = evaluate env0 net0 [] [] [t0] :=
  evaluate_does_not_mutate_weights env0 net0 [] [] [t0] (by decide)
    (by decide)
    (by
      intro i hi hp
      have h0 : i = 0 := Nat.lt_one_iff.mp hp
      subst h0
      rfl)

/-!
## Claim theorems: storage aliasing and sampling
-/

/-- The storage-level model state of the client: one weight tensor
backed by address 0. -/
def heapNet0 : HeapNet := [("w", ⟨0⟩)]

/-- A store holding the array `[1]` at address 0. -/
def store0 : Store := [[1]]

/-- C8 counterexample: the array returned by `get_parameters` for
`heapNet0`'s weight references the same storage as the live parameter
(address 0), so an in-place weight update — as performed by
`optimizer.step()` during training or by `load_state_dict` during
`set_parameters` — changes what the previously returned array contains:
it read `[1]` before the update and `[2]` after, refuting that the
returned arrays are left unchanged by model mutation. -/
theorem get_parameters_aliases_model_storage :
    readStore store0
      ((getParametersRef heapNet0).headD ⟨0⟩).addr = [1] ∧
    readStore
      (inPlaceUpdate store0 ((heapNet0.headD ("", ⟨0⟩)).2) [2])
      ((getParametersRef heapNet0).headD ⟨0⟩).addr = [2] ∧
    ([2] : List ℚ) ≠ [1] := by
  refine ⟨by decide, by decide, by decide⟩

/-- C8 (amended): because the model is never moved off the CPU and
`.cpu().numpy()` is the identity on storage for CPU tensors, the arrays
returned by `get_parameters` are references to the live model's own
parameter storage, not snapshots: the returned sequence holds exactly
the model's tensor references, and an in-place update through a
parameter's address is visible when reading the returned reference.  A
true snapshot would require an explicit copy. -/
theorem get_parameters_returns_model_references (net : HeapNet) (i : Nat)
    (k : String) (t : TensorRef) (hmem : net[i]? = some (k, t))
    (s : Store) (v : List ℚ) (ha : t.addr < s.length) :
    (getParametersRef net)[i]? = some t ∧
    readStore (inPlaceUpdate s t v) t.addr = v := by
  constructor
  · simp [getParametersRef, numpySharing, cpuOnCpu, hmem]
  · show (s.set t.addr v).getD t.addr [] = v
    rw [List.getD_eq_getElem?_getD, List.getElem?_set_eq_of_lt v ha]
    rfl

/-- Witness for C8 (amended) at concrete inputs. -/
theorem get_parameters_returns_model_references_witness :
    (getParametersRef heapNet0)[0]? = some (⟨0⟩ : TensorRef) ∧
    readStore (inPlaceUpdate store0 ⟨0⟩ [5]) (⟨0⟩ : TensorRef).addr
      = [5] :=
  get_parameters_returns_model_references heapNet0 0 "w" ⟨0⟩ (by decide)
    store0 [5] (by decide)

/-- C10: `sample(net)` always draws its latent vector as
`torch.randn(10)` — ten noise entries, the literal 10 being hard-coded —
and returns `net.decode` applied to it (under `torch.no_grad()`, which
does not change values); hence for every configuration with
latent_size ≠ 10 the latent dimension used by `sample` disagrees with
the configured latent size. -/
theorem sample_fixed_latent_dim (cfg : TrainingConfig)
    (decode : List ℚ → List ℚ) (randn : Nat → ℚ)
    (h : cfg.latentSize ≠ 10) :
    (sampleLatentInput randn).length = 10 ∧
    sample decode randn = decode (sampleLatentInput randn) ∧
    (sampleLatentInput randn).length ≠ cfg.latentSize := by
  have hl : (sampleLatentInput randn).length = 10 := by
    simp [sampleLatentInput]
  refine ⟨hl, rfl, ?_⟩
  rw [hl]
  exact Ne.symm h

/-- Witness for C10 at a configuration with latent size 5. -/
theorem sample_fixed_latent_dim_witness :
    (sampleLatentInput (fun _ => 0)).length = 10 ∧
    sample id (fun _ => 0) = id (sampleLatentInput (fun _ => 0)) ∧
    (sampleLatentInput (fun _ => 0)).length
      ≠ (TrainingConfig.mk 10 5).latentSize :=
  sample_fixed_latent_dim ⟨10, 5⟩ id (fun _ => 0) (by decide)
